import Mathlib

/-
Shallow embedding of src/graph_controller.py (class ProjectController):
the directed weighted topology graph, Dijkstra shortest paths, the slice
registry, failure recovery (fail_node / repopulate_switches /
reestablish_slice), slice admission (add_slice), multicast aggregation
(add_multicast_flows) and the broadcast handler (add_base_broadcast),
together with the fragments of _packet_in_handler that the verified
properties depend on.  Messages sent to switches are modelled as an
explicit event trace.
-/

set_option maxRecDepth 8000

namespace PBL

/-- Traffic-class weight selectors; these mirror the per-edge attributes
weight, video, latency and mission_critical used in graph_controller.py. -/
inductive WClass where
  | weight
  | video
  | latency
  | mission_critical
  deriving DecidableEq, Repr

/-- Graph nodes: switches are Python ints, hosts are the strings
"10.0.0.n" (represented by their last octet n); bcast stands for the
broadcast address "10.255.255.255", which is never pre-seeded in the
graph but is a possible node value. -/
inductive Node where
  | sw (n : Nat)
  | host (n : Nat)
  | bcast
  deriving DecidableEq, Repr

/-- Edge attributes as set by the add_edge calls in __init__ and in
_packet_in_handler: an optional output port plus one weight per class. -/
structure EdgeAttr where
  eport : Option Nat
  weight : Nat
  video : Nat
  latency : Nat
  mission_critical : Nat
  deriving DecidableEq, Repr

/-- Select the weight attribute named by a weight class. -/
def EdgeAttr.wOf (a : EdgeAttr) : WClass → Nat
  | .weight => a.weight
  | .video => a.video
  | .latency => a.latency
  | .mission_critical => a.mission_critical

/-- The networkx DiGraph self.net: a node list (insertion ordered) and a
directed edge list with attributes. -/
structure Graph where
  nodes : List Node
  edges : List (Node × Node × EdgeAttr)
  deriving DecidableEq, Repr

def Graph.hasNode (g : Graph) (v : Node) : Bool :=
  g.nodes.contains v

/-- networkx add_node: a no-op when the node already exists. -/
def Graph.addNode (g : Graph) (v : Node) : Graph :=
  if g.hasNode v then g else { g with nodes := g.nodes ++ [v] }

/-- networkx add_edge: adds missing endpoints, replaces the attributes if
the edge already exists. -/
def Graph.addEdge (g : Graph) (u v : Node) (a : EdgeAttr) : Graph :=
  let g := (g.addNode u).addNode v
  if g.edges.any (fun e => e.1 == u && e.2.1 == v) then
    { g with edges := g.edges.map (fun e => if e.1 == u && e.2.1 == v then (u, v, a) else e) }
  else
    { g with edges := g.edges ++ [(u, v, a)] }

/-- Remove a node and every incident edge (networkx remove_node, the
part after its membership check). -/
def Graph.removeNode (g : Graph) (v : Node) : Graph :=
  { nodes := g.nodes.erase v
    edges := g.edges.filter (fun e => !(e.1 == v) && !(e.2.1 == v)) }

/-- networkx remove_node raises NetworkXError when the node is absent;
modelled as Except. -/
def Graph.removeNodeE (g : Graph) (v : Node) : Except String Graph :=
  if g.hasNode v then .ok (g.removeNode v) else .error "NetworkXError"

def Graph.edgeAttr (g : Graph) (u v : Node) : Option EdgeAttr :=
  (g.edges.find? (fun e => e.1 == u && e.2.1 == v)).map (fun e => e.2.2)

def Graph.edgeWeight (g : Graph) (u v : Node) (wc : WClass) : Option Nat :=
  (g.edgeAttr u v).map (fun a => a.wOf wc)

/-- Lookup of self.net[u][v]["port"]; none models the KeyError raised
when the edge or the port attribute is missing. -/
def Graph.outPort (g : Graph) (u v : Node) : Option Nat :=
  (g.edgeAttr u v).bind (fun a => a.eport)

/-- Dijkstra table: per node, an optional (tentative distance, path). -/
abbrev DTab := List (Node × Option (Nat × List Node))

/-- Relax every edge leaving u at distance du with path pu. -/
def relax (g : Graph) (wc : WClass) (u : Node) (du : Nat) (pu : List Node) (tab : DTab) : DTab :=
  tab.map fun e =>
    match g.edgeWeight u e.1 wc with
    | none => e
    | some w =>
      match e.2 with
      | none => (e.1, some (du + w, pu ++ [e.1]))
      | some (d, p) => if du + w < d then (e.1, some (du + w, pu ++ [e.1])) else (e.1, some (d, p))

/-- Pick the unvisited node with minimal tentative distance (first such
entry in table order on ties). -/
def pickMin (visited : List Node) (tab : DTab) : Option (Node × Nat × List Node) :=
  tab.foldl (fun best e =>
    match e with
    | (v, some (d, p)) =>
      if visited.contains v then best
      else
        match best with
        | none => some (v, d, p)
        | some (v', d', p') => if d < d' then some (v, d, p) else some (v', d', p')
    | (_, none) => best) none

/-- Fuelled Dijkstra main loop. -/
def dijkstra (g : Graph) (wc : WClass) : Nat → List Node → DTab → DTab
  | 0, _, tab => tab
  | fuel + 1, visited, tab =>
    match pickMin visited tab with
    | none => tab
    | some (u, du, pu) => dijkstra g wc fuel (u :: visited) (relax g wc u du pu tab)

/-- Model of nx.shortest_path(self.net, src, dst, weight=wc): returns
the node sequence from src to dst of minimal total weight, none when an
endpoint is absent or no path exists (NodeNotFound / NetworkXNoPath). -/
def shortestPath (g : Graph) (src dst : Node) (wc : WClass) : Option (List Node) :=
  if g.hasNode src && g.hasNode dst then
    let tab0 : DTab := g.nodes.map fun v => (v, if v = src then some (0, [src]) else none)
    let tab := dijkstra g wc g.nodes.length [] tab0
    match tab.find? (fun e => e.1 == dst) with
    | some (_, some (_, p)) => some p
    | _ => none
  else none

/-- Total weight of a node sequence under one weight class; none if some
consecutive pair is not an edge. -/
def pathWeight (g : Graph) (wc : WClass) : List Node → Option Nat
  | [] => some 0
  | [_] => some 0
  | a :: b :: rest =>
    match g.edgeWeight a b wc, pathWeight g wc (b :: rest) with
    | some w, some r => some (w + r)
    | _, _ => none

/-- Every consecutive pair of the sequence is an edge of the graph. -/
def isChain (g : Graph) : List Node → Bool
  | [] => true
  | [_] => true
  | a :: b :: rest => (g.edgeAttr a b).isSome && isChain g (b :: rest)

/-- Forward switch-to-host edge from __init__ (port 2, all weights 0). -/
def hostEdgeFwd : EdgeAttr := ⟨some 2, 0, 0, 0, 0⟩

/-- Backward host-to-switch edge from __init__ (no port, weights 0). -/
def hostEdgeBack : EdgeAttr := ⟨none, 0, 0, 0, 0⟩

/-- Inter-switch edge from __init__ (given port, all weights 1). -/
def swEdge (p : Nat) : EdgeAttr := ⟨some p, 1, 1, 1, 1⟩

/-- The static test topology built in ProjectController.__init__:
hosts 10.0.0.1 .. 10.0.0.4 each attached to switch i at port 2, and the
4-switch ring with the declared ports. -/
def initNet : Graph :=
  let g : Graph := ⟨[], []⟩
  let g := (List.range 4).foldl (fun g i =>
    let h := Node.host (i + 1)
    let g := g.addNode h
    let g := g.addEdge (Node.sw (i + 1)) h hostEdgeFwd
    g.addEdge h (Node.sw (i + 1)) hostEdgeBack) g
  let g := (((g.addNode (Node.sw 1)).addNode (Node.sw 2)).addNode (Node.sw 3)).addNode (Node.sw 4)
  let g := g.addEdge (Node.sw 1) (Node.sw 2) (swEdge 3)
  let g := g.addEdge (Node.sw 2) (Node.sw 1) (swEdge 4)
  let g := g.addEdge (Node.sw 2) (Node.sw 3) (swEdge 3)
  let g := g.addEdge (Node.sw 3) (Node.sw 2) (swEdge 4)
  let g := g.addEdge (Node.sw 3) (Node.sw 4) (swEdge 3)
  let g := g.addEdge (Node.sw 4) (Node.sw 3) (swEdge 4)
  let g := g.addEdge (Node.sw 4) (Node.sw 1) (swEdge 3)
  g.addEdge (Node.sw 1) (Node.sw 4) (swEdge 4)

/-- Queue constants from __init__ (smart_failure=True, disable_slicing=False). -/
def DEFAULT_QUEUE : Nat := 0

def VIDEO_QUEUE : Nat := 0

def MULTICAST_QUEUE : Nat := 1

def LATENCY_QUEUE : Nat := 2

def CRITICAL_QUEUE : Nat := 3

/-- A slice-flow tuple (ipv4_src, ipv4_dst, protocol, dst_port, queue_id,
weight, path, of_priority) as stored in the self.slices sets. -/
structure SliceRec where
  src : Node
  dst : Node
  protocol : Nat
  dstPort : Nat
  queueId : Nat
  wclass : WClass
  path : List Node
  ofPriority : Nat
  deriving DecidableEq, Repr

/-- An element of a registry set: some tuple, or the Python value None
(which repopulate_switches can insert when reestablish_slice returns None). -/
abbrev Entry := Option SliceRec

/-- The self.slices dictionary: destination port 5004, 10022 and 10023
each map to a set (modelled as an insertion-ordered duplicate-free list). -/
structure Slices where
  video : List Entry
  latency : List Entry
  critical : List Entry
  deriving DecidableEq, Repr

def Slices.get? (s : Slices) : Nat → Option (List Entry)
  | 5004 => some s.video
  | 10022 => some s.latency
  | 10023 => some s.critical
  | _ => none

def Slices.setPort (s : Slices) : Nat → List Entry → Slices
  | 5004, l => { s with video := l }
  | 10022, l => { s with latency := l }
  | 10023, l => { s with critical := l }
  | _, _ => s

/-- Python set.add: append iff not already present. -/
def addEntry (l : List Entry) (e : Entry) : List Entry :=
  if l.contains e then l else l ++ [e]

/-- Messages the controller sends to switches, as an observable trace. -/
inductive Event where
  | install (dpid dstPort : Nat) (src dst : Node) (protocol priority queueId outPortNo : Nat)
  | anyFlow (dpid priority : Nat)
  | removeFlows (dpid : Nat)
  | tableMiss (dpid : Nat)
  | packetOut (dpid : Nat)
  deriving DecidableEq, Repr

/-- Destination port of an install event, none for other events. -/
def Event.instPort? : Event → Option Nat
  | .install _ p _ _ _ _ _ _ => some p
  | _ => none

/-- add_port_based_flow: installs a match on protocol / dst_port / src /
dst with the given actions; unsupported protocols are logged and dropped. -/
def addPortBasedFlow (dpid dstPort : Nat) (src dst : Node) (protocol priority queueId outPortNo : Nat) :
    List Event :=
  if protocol = 17 ∨ protocol = 6 then
    [Event.install dpid dstPort src dst protocol priority queueId outPortNo]
  else []

/-- Python sequence indexing with negative offsets; none models IndexError. -/
def pyGet {α : Type} (l : List α) (i : Int) : Option α :=
  if 0 ≤ i then l.get? i.toNat
  else
    let j : Int := (l.length : Int) + i
    if 0 ≤ j then l.get? j.toNat else none

/-- The node following v in path (path[path.index(v) + 1]); none models
the IndexError when v is last or the ValueError when v is absent. -/
def nextAfter (path : List Node) (v : Node) : Option Node :=
  match path.findIdx? (fun x => x == v) with
  | none => none
  | some i => path.get? (i + 1)

/-- The pruning loop of repopulate_switches (lines 355-369): discard
every record whose stored path has the failed node as second or
second-to-last element.  Errors model the uncaught TypeError on a None
entry and IndexError on a too-short path. -/
def pruneSet (failed : Node) : List Entry → Except String (List Entry)
  | [] => .ok []
  | none :: _ => .error "TypeError"
  | some r :: rest =>
    match pyGet r.path 1, pyGet r.path (-2) with
    | some a, some b =>
      match pruneSet failed rest with
      | .error e => .error e
      | .ok kept => .ok (if a = failed ∨ b = failed then kept else some r :: kept)
    | _, _ => .error "IndexError"

/-- reestablish_slice: recompute the shortest path from src to dst; on
failure log and return None; otherwise send each datapath on the new
path its port-based rule and return the record with the path replaced.
The event list holds the rule installs issued before any error. -/
def reestStep (g : Graph) (r : SliceRec) (path : List Node)
    (acc : List Event × Option String) (dpid : Nat) : List Event × Option String :=
  match acc.2 with
  | some _ => acc
  | none =>
    if path.contains (Node.sw dpid) then
      match nextAfter path (Node.sw dpid) with
      | none => (acc.1, some "IndexError")
      | some nxt =>
        match g.outPort (Node.sw dpid) nxt with
        | none => (acc.1, some "KeyError")
        | some op =>
          (acc.1 ++ addPortBasedFlow dpid r.dstPort r.src r.dst r.protocol r.ofPriority r.queueId op,
           none)
    else acc

def reestablishSlice (g : Graph) (dps : List Nat) (r : SliceRec) :
    List Event × Except String Entry :=
  match shortestPath g r.src r.dst r.wclass with
  | none => ([], .ok none)
  | some path =>
    let res := dps.foldl (reestStep g r path) ([], none)
    match res.2 with
    | some e => (res.1, .error e)
    | none => (res.1, .ok (some { r with path := path }))

/-- One per-port reestablishment loop of repopulate_switches (lines
373-410): iterate the pruned set, drop records whose stored path holds
the failed node, reestablish each record and add the result (which may
be the Python value None) to the set if not already present. -/
def procStep (g : Graph) (dps : List Nat) (failed : Node)
    (acc : List Event × Except String (List Entry)) (e : Entry) :
    List Event × Except String (List Entry) :=
  match acc.2 with
  | .error _ => acc
  | .ok tmp =>
    match e with
    | none => (acc.1, .error "TypeError")
    | some r =>
      let tmp := if r.path.contains failed then tmp.erase e else tmp
      let res := reestablishSlice g dps r
      match res.2 with
      | .error s => (acc.1 ++ res.1, .error s)
      | .ok newE =>
        (acc.1 ++ res.1, .ok (if tmp.contains newE then tmp else tmp ++ [newE]))

def processPort (g : Graph) (dps : List Nat) (failed : Node) (entries : List Entry) :
    List Event × Except String (List Entry) :=
  entries.foldl (procStep g dps failed) ([], .ok entries)

/-- repopulate_switches: prune all three registry sets, then reestablish
them in the order 10023 (mission_critical), 10022 (latency), 5004 (video). -/
def repopulateSwitches (g : Graph) (dps : List Nat) (s : Slices) (failed : Node) :
    List Event × Except String Slices :=
  match pruneSet failed s.video with
  | .error e => ([], .error e)
  | .ok v =>
    match pruneSet failed s.latency with
    | .error e => ([], .error e)
    | .ok l =>
      match pruneSet failed s.critical with
      | .error e => ([], .error e)
      | .ok c =>
        let rc := processPort g dps failed c
        match rc.2 with
        | .error e => (rc.1, .error e)
        | .ok c' =>
          let rl := processPort g dps failed l
          match rl.2 with
          | .error e => (rc.1 ++ rl.1, .error e)
          | .ok l' =>
            let rv := processPort g dps failed v
            match rv.2 with
            | .error e => (rc.1 ++ rl.1 ++ rv.1, .error e)
            | .ok v' => (rc.1 ++ rl.1 ++ rv.1, .ok ⟨v', l', c'⟩)

/-- fail_node: when the node is still in the graph, remove it and reset
every known switch (flush all flows, reinstall the table-miss rule);
when it is already absent, log and return without touching anything. -/
def failNode (g : Graph) (dps : List Nat) (failed : Node) : Graph × List Event :=
  if g.hasNode failed then
    (g.removeNode failed,
     dps.foldl (fun acc d => acc ++ [Event.removeFlows d, Event.tableMiss d]) [])
  else (g, [])

/-- Controller state shared by the handlers. -/
structure Ctrl where
  net : Graph
  slices : Slices
  datapaths : List Nat
  smartFailure : Bool
  deriving DecidableEq, Repr

/-- The failure-signal branch of _packet_in_handler (lines 473-483) for
a destination address with fail_dict entry sw: it first calls
self.net.remove_node on the host string "10.0.0.sw" (which raises
NetworkXError when that node is already gone), then fail_node(sw), then
repopulate_switches when smart_failure is on. -/
def handleFailSignal (st : Ctrl) (sw : Nat) : List Event × Except String Ctrl :=
  match st.net.removeNodeE (Node.host sw) with
  | .error e => ([], .error e)
  | .ok g1 =>
    let fn := failNode g1 st.datapaths (Node.sw sw)
    if st.smartFailure then
      let rp := repopulateSwitches fn.1 st.datapaths st.slices (Node.sw sw)
      match rp.2 with
      | .error e => (fn.2 ++ rp.1, .error e)
      | .ok s' => (fn.2 ++ rp.1, .ok { st with net := fn.1, slices := s' })
    else (fn.2, .ok { st with net := fn.1 })

/-- add_slice: compute the path from the packet-in switch to the
destination (early return on failure), derive the out port, compute the
source-to-destination path, deduplicate the tuple into the registry set
(a missing registry key is a caught KeyError leaving the registry
unchanged), and finally install exactly one port-based rule on the
packet-in switch.  Errors model the uncaught IndexError / KeyError of
the next-hop and port lookups. -/
def addSlice (g : Graph) (s : Slices) (dpid : Nat) (src dst : Node)
    (protocol dstPort queueId : Nat) (w : WClass) (ofPriority : Nat) :
    List Event × Slices × Except String (Option Nat × Nat) :=
  match shortestPath g (Node.sw dpid) dst w with
  | none => ([], s, .ok (none, DEFAULT_QUEUE))
  | some path =>
    match nextAfter path (Node.sw dpid) with
    | none => ([], s, .error "IndexError")
    | some nxt =>
      match g.outPort (Node.sw dpid) nxt with
      | none => ([], s, .error "KeyError")
      | some op =>
        match shortestPath g src dst w with
        | none => ([], s, .ok (none, DEFAULT_QUEUE))
        | some srcPath =>
          let r : SliceRec := ⟨src, dst, protocol, dstPort, queueId, w, srcPath, ofPriority⟩
          let s' :=
            match s.get? dstPort with
            | none => s
            | some set => s.setPort dstPort (addEntry set (some r))
          (addPortBasedFlow dpid dstPort src dst protocol ofPriority queueId op,
           s', .ok (some op, queueId))

/-- The hard-coded self.block_dict mapping (dpid, ipv4_src) to the
switch whose port must be blocked in broadcast mode. -/
def blockDict : Nat → Node → Option Nat
  | 3, Node.host 1 => some 2
  | 4, Node.host 2 => some 3
  | 1, Node.host 3 => some 4
  | 2, Node.host 4 => some 1
  | _, _ => none

/-- add_base_broadcast: every control path evaluates an undefined name
before sending anything.  The local variable is assigned as queu_id but
the action lists read queue_id, and the two add_any_flow calls read
of_priority, neither of which is bound anywhere in the function; the
resulting NameError is modelled as an error raised before any event is
emitted. -/
def addBaseBroadcast (g : Graph) (inPort dpid : Nat) (src : Node) :
    List Event × Except String (Nat × Nat) :=
  if inPort = 2 then
    ([], .error "NameError: queue_id")
  else
    match blockDict dpid src with
    | some b =>
      if g.hasNode (Node.sw b) then ([], .error "NameError: of_priority")
      else ([], .error "NameError: queue_id")
    | none => ([], .error "NameError: queue_id")

/-- The ordinary-traffic branch of _packet_in_handler (lines 568-600)
for dst = "10.255.255.255": if the broadcast address happens to be a
graph node the handler calls add_base_broadcast and, were it to return,
would send the packet out; otherwise the packet is dropped as unknown. -/
def handleOrdinaryBroadcast (g : Graph) (inPort dpid : Nat) (src : Node) :
    List Event × Except String Unit :=
  if g.hasNode Node.bcast then
    let r := addBaseBroadcast g inPort dpid src
    match r.2 with
    | .error e => (r.1, .error e)
    | .ok _ => (r.1 ++ [Event.packetOut dpid], .ok ())
  else ([], .ok ())

/-- Intersection next_ports[3].intersection(next_ports[4]) with the left
set giving the iteration order. -/
def inter (s t : List Node) : List Node :=
  s.filter (fun d => t.contains d)

/-- One iteration of the ambiguity loop in add_multicast_flows (lines
639-643): when port 3's set is currently strictly smaller than port 4's
the destination is removed from port 3's set, otherwise from port 4's. -/
def resolveStep (st : List Node × List Node) (d : Node) : List Node × List Node :=
  if st.1.length < st.2.length then (st.1.erase d, st.2) else (st.1, st.2.erase d)

/-- The full ambiguity-resolution loop over the intersection of port 3's
and port 4's destination sets. -/
def resolveAmbiguity (s3 s4 : List Node) : List Node × List Node :=
  (inter s3 s4).foldl resolveStep (s3, s4)

/-- Actions of the multicast output phase. -/
inductive Action where
  | setQueue (q : Nat)
  | setIpDst (d : Node)
  | setUdpDst (p : Nat)
  | output (port : Nat)
  deriving DecidableEq, Repr

/-- Last IP octet of a destination host (dst.split(".")[-1]). -/
def lastOctet : Node → Nat
  | .host n => n
  | .sw n => n
  | .bcast => 255

/-- Python int() applied to a nonnegative decimal digit string. -/
def pyInt (s : String) : Nat :=
  s.data.foldl (fun n c => n * 10 + (c.toNat - 48)) 0

/-- The synthesized multicast destination port as the source builds it:
the digit string "11" extended with each destination's last octet in
iteration order, right-padded with "0" to 5 characters, then int(). -/
def multicastPortCode (dests : List Node) : Nat :=
  let s := dests.foldl (fun acc d => acc ++ toString (lastOctet d)) "11"
  pyInt (s ++ String.mk (List.replicate (5 - s.length) '0'))

/-- Modelled from the spec: the integer formed by the prefix 11 followed
by each destination's last IP octet in iteration order, right-padded
with 0 to 5 digits (stated arithmetically for single-digit octets). -/
def multicastPortSpec (dests : List Node) : Nat :=
  (dests.foldl (fun a d => a * 10 + lastOctet d) 11) * 10 ^ (3 - dests.length)

/-- The per-port output phase of add_multicast_flows (lines 646-670):
one destination yields queue + rewrite of ipv4_dst + udp_dst 10001 +
output; an empty set yields nothing; several destinations yield queue +
synthesized udp_dst + output on the shared port. -/
def portActions (outPortNo : Nat) (dests : List Node) : List Action :=
  match dests with
  | [d] => [.setQueue MULTICAST_QUEUE, .setIpDst d, .setUdpDst 10001, .output outPortNo]
  | [] => []
  | _ => [.setQueue MULTICAST_QUEUE, .setUdpDst (multicastPortCode dests), .output outPortNo]

/-! Theorems. -/

/-- C9: on the initial static topology the default-weight shortest path
from switch 1 to host 10.0.0.3 is a 4-node sequence that starts at
switch 1, ends at host 10.0.0.3, has total weight 2, and whose
consecutive pairs are all edges of the graph. -/
theorem C9_ring_shortest_path :
    ∃ p, shortestPath initNet (Node.sw 1) (Node.host 3) WClass.weight = some p ∧
      p.length = 4 ∧ p.head? = some (Node.sw 1) ∧ p.getLast? = some (Node.host 3) ∧
      pathWeight initNet WClass.weight p = some 2 ∧ isChain initNet p = true := by
  refine ⟨[Node.sw 1, Node.sw 2, Node.sw 3, Node.host 3], ?_, ?_, ?_, ?_, ?_, ?_⟩ <;> decide

/-- Every control path of add_base_broadcast reads an undefined name
before any message is sent. -/
theorem addBaseBroadcast_always_raises (g : Graph) (inPort dpid : Nat) (src : Node) :
    ∃ e, addBaseBroadcast g inPort dpid src = ([], Except.error e) := by
  unfold addBaseBroadcast
  split
  · exact ⟨_, rfl⟩
  · split
    · split
      · exact ⟨_, rfl⟩
      · exact ⟨_, rfl⟩
    · exact ⟨_, rfl⟩

/-- C10: for every graph state, ingress port, switch and source address,
add_base_broadcast emits no flow install and ends in a NameError (its
action lists read the undefined name queue_id, the misspelt local being
queu_id, and its add_any_flow calls read the undefined name of_priority),
so the ordinary-traffic broadcast branch of the packet-in handler never
installs a base-broadcast flow and never sends a packet-out. -/
theorem C10_base_broadcast_never_installs (g : Graph) (inPort dpid : Nat) (src : Node) :
    (addBaseBroadcast g inPort dpid src).1 = [] ∧
    (∃ e, (addBaseBroadcast g inPort dpid src).2 = Except.error e) ∧
    (handleOrdinaryBroadcast g inPort dpid src).1 = [] := by
  obtain ⟨e, he⟩ := addBaseBroadcast_always_raises g inPort dpid src
  refine ⟨by rw [he], ⟨e, by rw [he]⟩, ?_⟩
  unfold handleOrdinaryBroadcast
  split
  · simp [he]
  · rfl

/-- Controller state after the first failure of switch 3: both the host
10.0.0.3 and the switch node 3 have been removed from the graph. -/
def afterFail3 : Ctrl :=
  ⟨(initNet.removeNode (Node.host 3)).removeNode (Node.sw 3), ⟨[], [], []⟩, [1, 2, 4], true⟩

/-- C1: fail_node itself really is an idempotent no-op on an absent node,
but a second delivery of the same failure signal raises inside the
packet-in handler: before fail_node runs, the handler unconditionally
calls self.net.remove_node on the host 10.0.0.3, which is already gone,
so networkx raises NetworkXError and the handling path does not complete. -/
theorem C1_second_failure_signal_raises :
    failNode afterFail3.net [1, 2, 4] (Node.sw 3) = (afterFail3.net, []) ∧
    handleFailSignal afterFail3 3 = ([], Except.error "NetworkXError") := by
  constructor <;> rfl

/-- A degraded topology in which host 10.0.0.2 is unreachable from host
10.0.0.1: the two hosts hang off switches 1 and 2 with no inter-switch
link (switch 3, which connected them, is gone). -/
def noPathNet : Graph :=
  let g : Graph := ⟨[], []⟩
  let g := g.addEdge (Node.sw 1) (Node.host 1) hostEdgeFwd
  let g := g.addEdge (Node.host 1) (Node.sw 1) hostEdgeBack
  let g := g.addEdge (Node.sw 2) (Node.host 2) hostEdgeFwd
  g.addEdge (Node.host 2) (Node.sw 2) hostEdgeBack

/-- A mission-critical record whose stored path ran through switch 3. -/
def recThroughSw3 : SliceRec :=
  ⟨Node.host 1, Node.host 2, 17, 10023, 3, WClass.mission_critical,
   [Node.host 1, Node.sw 1, Node.sw 3, Node.sw 2, Node.host 2], 3⟩

/-- Registry holding just that record in the mission-critical set. -/
def regThroughSw3 : Slices := ⟨[], [], [some recThroughSw3]⟩

/-- C2: when reestablishment of a surviving record finds no path,
repopulate_switches does not leave the registry with only well-formed
tuples: reestablish_slice returns the Python value None and the loop
adds that None to the registry set.  At this concrete input the record
through failed switch 3 is removed, no rule is installed, and the
mission-critical set afterwards is exactly the sentinel None. -/
theorem C2_reestablish_inserts_none_sentinel :
    repopulateSwitches noPathNet [1, 2] regThroughSw3 (Node.sw 3) =
      ([], Except.ok ⟨[], [], [none]⟩) ∧
    shortestPath noPathNet (Node.host 1) (Node.host 2) WClass.mission_critical = none := by
  constructor <;> rfl

/-- Characterization of a successful pruning pass: kept entries are
exactly the input tuples whose path's second and second-to-last elements
both differ from the failed node, in order. -/
theorem pruneSet_ok_char (failed : Node) :
    ∀ (entries kept : List Entry), pruneSet failed entries = Except.ok kept →
      (∀ e ∈ kept, e ∈ entries ∧ ∃ r, e = some r ∧ ∃ a b,
          pyGet r.path 1 = some a ∧ pyGet r.path (-2) = some b ∧ a ≠ failed ∧ b ≠ failed) ∧
      (∀ e ∈ entries, e ∉ kept → ∃ r, e = some r ∧
          (pyGet r.path 1 = some failed ∨ pyGet r.path (-2) = some failed)) := by
  intro entries
  induction entries with
  | nil =>
    intro kept h
    simp only [pruneSet] at h
    cases h
    exact ⟨by simp, by simp⟩
  | cons e rest ih =>
    intro kept h
    match e with
    | none => exact absurd h (by simp [pruneSet])
    | some r =>
      simp only [pruneSet] at h
      rcases ha : pyGet r.path 1 with _ | a <;> rw [ha] at h
      · simp at h
      rcases hb : pyGet r.path (-2) with _ | b <;> rw [hb] at h
      · simp at h
      rcases hrest : pruneSet failed rest with e' | kept' <;> rw [hrest] at h
      · simp at h
      obtain ⟨hk, hd⟩ := ih kept' hrest
      cases h
      by_cases hviol : a = failed ∨ b = failed
      · rw [if_pos hviol]
        constructor
        · intro x hx
          obtain ⟨hx1, hx2⟩ := hk x hx
          exact ⟨List.mem_cons_of_mem _ hx1, hx2⟩
        · intro x hx hnx
          rcases List.mem_cons.1 hx with hx | hx
          · subst hx
            refine ⟨r, rfl, ?_⟩
            rcases hviol with hv | hv
            · exact Or.inl (hv ▸ ha)
            · exact Or.inr (hv ▸ hb)
          · exact hd x hx hnx
      · rw [if_neg hviol]
        push_neg at hviol
        constructor
        · intro x hx
          rcases List.mem_cons.1 hx with hx | hx
          · subst hx
            exact ⟨List.mem_cons_self _ _, r, rfl, a, b, ha, hb, hviol.1, hviol.2⟩
          · obtain ⟨hx1, hx2⟩ := hk x hx
            exact ⟨List.mem_cons_of_mem _ hx1, hx2⟩
        · intro x hx hnx
          rcases List.mem_cons.1 hx with hx | hx
          · exact absurd (hx ▸ List.mem_cons_self (some r) kept') hnx
          · exact hd x hx (fun hxk => hnx (List.mem_cons_of_mem _ hxk))

/-- C3: for every registry set and every failed node, whenever the
pruning phase completes, every record remaining has a stored path whose
second and second-to-last elements both differ from the failed node, and
every input entry not kept was discarded because one of those two path
elements equals the failed node. -/
theorem C3_prune_registry_consistency (entries kept : List Entry) (n : Node)
    (h : pruneSet n entries = Except.ok kept) :
    (∀ e ∈ kept, ∃ r, e = some r ∧ ∃ a b, pyGet r.path 1 = some a ∧
        pyGet r.path (-2) = some b ∧ a ≠ n ∧ b ≠ n) ∧
    (∀ e ∈ entries, e ∉ kept → ∃ r, e = some r ∧
        (pyGet r.path 1 = some n ∨ pyGet r.path (-2) = some n)) := by
  obtain ⟨hk, hd⟩ := pruneSet_ok_char n entries kept h
  exact ⟨fun e he => (hk e he).2, hd⟩

/-- A record kept by the C3 witness: its path avoids switch 3 at both
critical positions. -/
def recKeep : SliceRec :=
  ⟨Node.host 1, Node.host 2, 17, 10023, 3, WClass.mission_critical,
   [Node.host 1, Node.sw 1, Node.sw 2, Node.host 2], 3⟩

/-- A record dropped by the C3 witness: its path's second-to-last
element is the failed switch 3. -/
def recDrop : SliceRec :=
  ⟨Node.host 1, Node.host 3, 17, 10023, 3, WClass.mission_critical,
   [Node.host 1, Node.sw 1, Node.sw 3, Node.host 3], 3⟩

/-- Witness for C3 at a concrete registry set and failed node 3. -/
theorem C3_prune_registry_consistency_witness :
    pruneSet (Node.sw 3) [some recDrop, some recKeep] = Except.ok [some recKeep] ∧
    ((∀ e ∈ [some recKeep], ∃ r, e = some r ∧ ∃ a b, pyGet r.path 1 = some a ∧
        pyGet r.path (-2) = some b ∧ a ≠ Node.sw 3 ∧ b ≠ Node.sw 3) ∧
     (∀ e ∈ [some recDrop, some recKeep], e ∉ [some recKeep] → ∃ r, e = some r ∧
        (pyGet r.path 1 = some (Node.sw 3) ∨ pyGet r.path (-2) = some (Node.sw 3)))) :=
  ⟨by rfl, C3_prune_registry_consistency _ _ _ (by rfl)⟩

/-- Generic invariant for event-accumulating folds: if every step only
appends events satisfying P, every event of the final accumulator that
is not initial satisfies P. -/
theorem foldl_events_inv {α σ : Type} (f : σ → α → σ) (proj : σ → List Event)
    (P : Event → Prop) :
    ∀ (l : List α) (s : σ),
      (∀ s' a, a ∈ l → ∀ ev ∈ proj (f s' a), ev ∈ proj s' ∨ P ev) →
      (∀ ev ∈ proj s, P ev) → ∀ ev ∈ proj (l.foldl f s), P ev := by
  intro l
  induction l with
  | nil => intro s _ hs ev hev; exact hs ev hev
  | cons a rest ih =>
    intro s hstep hs ev hev
    refine ih (f s a) (fun s' x hx => hstep s' x (List.mem_cons_of_mem _ hx)) ?_ ev hev
    intro ev' hev'
    rcases hstep s a (List.mem_cons_self _ _) ev' hev' with h | h
    · exact hs ev' h
    · exact h

/-- Every event from addPortBasedFlow is an install on its dst_port. -/
theorem addPortBasedFlow_port (dpid dstPort : Nat) (src dst : Node)
    (protocol priority queueId outPortNo : Nat) :
    ∀ ev ∈ addPortBasedFlow dpid dstPort src dst protocol priority queueId outPortNo,
      ev.instPort? = some dstPort := by
  intro ev hev
  unfold addPortBasedFlow at hev
  split at hev
  · rw [List.mem_singleton] at hev; subst hev; rfl
  · cases hev

/-- Every event a single reestStep adds is an install on the record's
destination port. -/
theorem reestStep_events (g : Graph) (r : SliceRec) (path : List Node)
    (acc : List Event × Option String) (dpid : Nat) :
    ∀ ev ∈ (reestStep g r path acc dpid).1, ev ∈ acc.1 ∨ ev.instPort? = some r.dstPort := by
  intro ev hev
  unfold reestStep at hev
  split at hev
  · exact Or.inl hev
  · split at hev
    · split at hev
      · exact Or.inl hev
      · split at hev
        · exact Or.inl hev
        · rcases List.mem_append.1 hev with h | h
          · exact Or.inl h
          · exact Or.inr (addPortBasedFlow_port _ _ _ _ _ _ _ _ ev h)
    · exact Or.inl hev

/-- Every rule install issued by reestablish_slice carries the record's
destination port. -/
theorem reestablishSlice_events_port (g : Graph) (dps : List Nat) (r : SliceRec) :
    ∀ ev ∈ (reestablishSlice g dps r).1, ev.instPort? = some r.dstPort := by
  unfold reestablishSlice
  split
  · intro ev hev; simp at hev
  · rename_i x path heq
    have main : ∀ ev ∈ (dps.foldl (reestStep g r path) ([], none)).1,
        ev.instPort? = some r.dstPort := by
      refine foldl_events_inv (reestStep g r path) (fun acc => acc.1)
        (fun ev => ev.instPort? = some r.dstPort) dps ([], none) ?_ ?_
      · intro s' a _ ev hev; exact reestStep_events g r path s' a ev hev
      · intro x hx; simp at hx
    intro ev hev
    dsimp only at hev
    split at hev
    · exact main ev hev
    · exact main ev hev

/-- Every rule install issued by one per-port reestablishment loop over
entries whose tuples all carry destination port p itself carries p. -/
theorem processPort_events_port (g : Graph) (dps : List Nat) (failed : Node)
    (p : Nat) (entries : List Entry)
    (hwf : ∀ r : SliceRec, some r ∈ entries → r.dstPort = p) :
    ∀ ev ∈ (processPort g dps failed entries).1, ev.instPort? = some p := by
  unfold processPort
  refine foldl_events_inv (procStep g dps failed) (fun acc => acc.1)
    (fun ev => ev.instPort? = some p) entries ([], Except.ok entries) ?_ ?_
  · intro s' a ha ev hev
    unfold procStep at hev
    split at hev
    · exact Or.inl hev
    · match a, ha with
      | none, _ => exact Or.inl hev
      | some r, ha =>
        dsimp only at hev
        split at hev
        · rcases List.mem_append.1 hev with h | h
          · exact Or.inl h
          · exact Or.inr (hwf r ha ▸ reestablishSlice_events_port g dps r ev h)
        · rcases List.mem_append.1 hev with h | h
          · exact Or.inl h
          · exact Or.inr (hwf r ha ▸ reestablishSlice_events_port g dps r ev h)
  · intro x hx; simp at hx

/-- Boolean well-formedness of one registry set: every tuple stored
under the set carries the given destination port. -/
def entriesPort (l : List Entry) (p : Nat) : Bool :=
  l.all fun e =>
    match e with
    | none => true
    | some r => r.dstPort == p

theorem entriesPort_sound {l : List Entry} {p : Nat} (h : entriesPort l p = true) :
    ∀ r : SliceRec, some r ∈ l → r.dstPort = p := by
  intro r hr
  have := List.all_eq_true.1 h _ hr
  simpa using this

/-- Membership in a successfully pruned set implies membership in the
input set. -/
theorem pruneSet_mem_sub {failed : Node} {entries kept : List Entry}
    (h : pruneSet failed entries = Except.ok kept) : ∀ e ∈ kept, e ∈ entries :=
  fun e he => ((pruneSet_ok_char failed entries kept h).1 e he).1

/-- C4: the reestablishment phase after a failure emits its rule-install
commands in strict class priority order: the full event trace decomposes
as all mission-critical (port 10023) installs, then all latency (port
10022) installs, then all video (port 5004) installs, for every graph,
datapath list, failed node and well-formed registry (each set's tuples
carry that set's destination port). -/
theorem C4_reestablish_priority_order (g : Graph) (dps : List Nat) (s : Slices) (failed : Node)
    (hc : entriesPort s.critical 10023 = true)
    (hl : entriesPort s.latency 10022 = true)
    (hv : entriesPort s.video 5004 = true) :
    ∃ e₁ e₂ e₃,
      (repopulateSwitches g dps s failed).1 = e₁ ++ e₂ ++ e₃ ∧
      (∀ ev ∈ e₁, ev.instPort? = some 10023) ∧
      (∀ ev ∈ e₂, ev.instPort? = some 10022) ∧
      (∀ ev ∈ e₃, ev.instPort? = some 5004) := by
  unfold repopulateSwitches
  rcases hpv : pruneSet failed s.video with er1 | v
  · refine ⟨[], [], [], ?_, ?_, ?_, ?_⟩ <;> simp [hpv]
  rcases hpl : pruneSet failed s.latency with er2 | l
  · refine ⟨[], [], [], ?_, ?_, ?_, ?_⟩ <;> simp [hpv, hpl]
  rcases hpc : pruneSet failed s.critical with er3 | c
  · refine ⟨[], [], [], ?_, ?_, ?_, ?_⟩ <;> simp [hpv, hpl, hpc]
  have hc' : ∀ ev ∈ (processPort g dps failed c).1, ev.instPort? = some 10023 :=
    processPort_events_port g dps failed 10023 c
      (fun r hr => entriesPort_sound hc r (pruneSet_mem_sub hpc _ hr))
  have hl' : ∀ ev ∈ (processPort g dps failed l).1, ev.instPort? = some 10022 :=
    processPort_events_port g dps failed 10022 l
      (fun r hr => entriesPort_sound hl r (pruneSet_mem_sub hpl _ hr))
  have hv' : ∀ ev ∈ (processPort g dps failed v).1, ev.instPort? = some 5004 :=
    processPort_events_port g dps failed 5004 v
      (fun r hr => entriesPort_sound hv r (pruneSet_mem_sub hpv _ hr))
  simp only [hpv, hpl, hpc]
  rcases h1 : (processPort g dps failed c).2 with e1 | c'
  · exact ⟨(processPort g dps failed c).1, [], [], by simp [h1], hc', by simp, by simp⟩
  rcases h2 : (processPort g dps failed l).2 with e2 | l'
  · exact ⟨(processPort g dps failed c).1, (processPort g dps failed l).1, [],
      by simp [h1, h2], hc', hl', by simp⟩
  rcases h3 : (processPort g dps failed v).2 with e3 | v'
  · exact ⟨(processPort g dps failed c).1, (processPort g dps failed l).1,
      (processPort g dps failed v).1, by simp [h1, h2, h3], hc', hl', hv'⟩
  · exact ⟨(processPort g dps failed c).1, (processPort g dps failed l).1,
      (processPort g dps failed v).1, by simp [h1, h2, h3], hc', hl', hv'⟩

/-- The topology after switch 3 and host 10.0.0.3 failed. -/
def postFail3Net : Graph := (initNet.removeNode (Node.host 3)).removeNode (Node.sw 3)

/-- Mission-critical record for the C4 witness. -/
def recCrit : SliceRec :=
  ⟨Node.host 1, Node.host 2, 17, 10023, CRITICAL_QUEUE, WClass.mission_critical,
   [Node.host 1, Node.sw 1, Node.sw 2, Node.host 2], 3⟩

/-- Latency record for the C4 witness. -/
def recLat : SliceRec :=
  ⟨Node.host 1, Node.host 4, 17, 10022, LATENCY_QUEUE, WClass.latency,
   [Node.host 1, Node.sw 1, Node.sw 4, Node.host 4], 3⟩

/-- Video record for the C4 witness. -/
def recVid : SliceRec :=
  ⟨Node.host 1, Node.host 2, 17, 5004, VIDEO_QUEUE, WClass.video,
   [Node.host 1, Node.sw 1, Node.sw 2, Node.host 2], 3⟩

/-- Registry with one record of each class for the C4 witness. -/
def regMixed : Slices := ⟨[some recVid], [some recLat], [some recCrit]⟩

/-- Witness for C4 at a concrete post-failure topology and registry. -/
theorem C4_reestablish_priority_order_witness :
    entriesPort regMixed.critical 10023 = true ∧
    entriesPort regMixed.latency 10022 = true ∧
    entriesPort regMixed.video 5004 = true ∧
    (∃ e₁ e₂ e₃,
      (repopulateSwitches postFail3Net [1, 2, 4] regMixed (Node.sw 3)).1 = e₁ ++ e₂ ++ e₃ ∧
      (∀ ev ∈ e₁, ev.instPort? = some 10023) ∧
      (∀ ev ∈ e₂, ev.instPort? = some 10022) ∧
      (∀ ev ∈ e₃, ev.instPort? = some 5004)) :=
  ⟨by decide, by decide, by decide,
   C4_reestablish_priority_order postFail3Net [1, 2, 4] regMixed (Node.sw 3)
     (by decide) (by decide) (by decide)⟩

/-- Unfolded form of one ambiguity-resolution step. -/
theorem resolveStep_eq (st : List Node × List Node) (d : Node) :
    resolveStep st d =
      if st.1.length < st.2.length then (st.1.erase d, st.2) else (st.1, st.2.erase d) := rfl

/-- Folding resolveStep over a list not containing d never changes
whether d belongs to either set. -/
theorem resolve_foldl_mem (d : Node) :
    ∀ (l : List Node) (st : List Node × List Node), d ∉ l →
      ((d ∈ (l.foldl resolveStep st).1 ↔ d ∈ st.1) ∧
       (d ∈ (l.foldl resolveStep st).2 ↔ d ∈ st.2)) := by
  intro l
  induction l with
  | nil => intro st _; exact ⟨Iff.rfl, Iff.rfl⟩
  | cons x rest ih =>
    intro st hd
    have hdx : d ≠ x := fun h => hd (h ▸ List.mem_cons_self x rest)
    have hdrest : d ∉ rest := fun h => hd (List.mem_cons_of_mem _ h)
    have hih := ih (resolveStep st x) hdrest
    rw [List.foldl_cons]
    refine ⟨hih.1.trans ?_, hih.2.trans ?_⟩
    · unfold resolveStep
      split
      · exact List.mem_erase_of_ne hdx
      · exact Iff.rfl
    · unfold resolveStep
      split
      · exact Iff.rfl
      · exact List.mem_erase_of_ne hdx

/-- Folding resolveStep preserves duplicate-freedom of both sets. -/
theorem resolve_foldl_nodup :
    ∀ (l : List Node) (st : List Node × List Node), st.1.Nodup → st.2.Nodup →
      ((l.foldl resolveStep st).1.Nodup ∧ (l.foldl resolveStep st).2.Nodup) := by
  intro l
  induction l with
  | nil => exact fun st h1 h2 => ⟨h1, h2⟩
  | cons x rest ih =>
    intro st h1 h2
    rw [List.foldl_cons]
    refine ih _ ?_ ?_ <;> unfold resolveStep <;> split
    · exact h1.erase x
    · exact h1
    · exact h2
    · exact h2.erase x

/-- Core fact about ambiguity resolution: an ambiguous destination d,
processed at the point where the intermediate sets are the fold over the
ambiguous destinations before it, ends up removed from port 3's set
exactly when that set is then strictly smaller, and removed from port
4's set otherwise (ties included). -/
theorem resolve_processed_step (s3 s4 : List Node) (h3 : s3.Nodup) (h4 : s4.Nodup)
    (l₁ : List Node) (d : Node) (l₂ : List Node)
    (hsplit : inter s3 s4 = l₁ ++ d :: l₂) :
    ((l₁.foldl resolveStep (s3, s4)).1.length < (l₁.foldl resolveStep (s3, s4)).2.length →
      d ∉ (resolveAmbiguity s3 s4).1 ∧ d ∈ (resolveAmbiguity s3 s4).2) ∧
    (¬ (l₁.foldl resolveStep (s3, s4)).1.length < (l₁.foldl resolveStep (s3, s4)).2.length →
      d ∈ (resolveAmbiguity s3 s4).1 ∧ d ∉ (resolveAmbiguity s3 s4).2) := by
  have hint : (inter s3 s4).Nodup := List.Nodup.filter _ h3
  have hnodup : (l₁ ++ d :: l₂).Nodup := hsplit ▸ hint
  obtain ⟨hn1, hn2, hdisj⟩ := List.nodup_append.1 hnodup
  have hdl1 : d ∉ l₁ := fun h => hdisj h (List.mem_cons_self d l₂)
  have hdl2 : d ∉ l₂ := (List.nodup_cons.1 hn2).1
  have hdinter : d ∈ inter s3 s4 := by
    rw [hsplit]; exact List.mem_append.2 (Or.inr (List.mem_cons_self d l₂))
  have hmem : d ∈ s3 ∧ d ∈ s4 := by
    have h := hdinter
    simp [inter] at h
    exact h
  have hmid := resolve_foldl_mem d l₁ (s3, s4) hdl1
  have hmid1 : d ∈ (l₁.foldl resolveStep (s3, s4)).1 := hmid.1.2 hmem.1
  have hmid2 : d ∈ (l₁.foldl resolveStep (s3, s4)).2 := hmid.2.2 hmem.2
  have hmidnd := resolve_foldl_nodup l₁ (s3, s4) h3 h4
  have hres : resolveAmbiguity s3 s4 =
      l₂.foldl resolveStep (resolveStep (l₁.foldl resolveStep (s3, s4)) d) := by
    rw [resolveAmbiguity, hsplit, List.foldl_append, List.foldl_cons]
  have hfin := resolve_foldl_mem d l₂ (resolveStep (l₁.foldl resolveStep (s3, s4)) d) hdl2
  constructor
  · intro hlt
    have hstep : resolveStep (l₁.foldl resolveStep (s3, s4)) d =
        ((l₁.foldl resolveStep (s3, s4)).1.erase d, (l₁.foldl resolveStep (s3, s4)).2) := by
      rw [resolveStep_eq, if_pos hlt]
    rw [hres, hstep]
    rw [hstep] at hfin
    constructor
    · intro hcon
      exact ((hmidnd.1.mem_erase_iff).1 (hfin.1.1 hcon)).1 rfl
    · exact hfin.2.2 hmid2
  · intro hge
    have hstep : resolveStep (l₁.foldl resolveStep (s3, s4)) d =
        ((l₁.foldl resolveStep (s3, s4)).1, (l₁.foldl resolveStep (s3, s4)).2.erase d) := by
      rw [resolveStep_eq, if_neg hge]
    rw [hres, hstep]
    rw [hstep] at hfin
    constructor
    · exact hfin.1.2 hmid1
    · intro hcon
      exact ((hmidnd.2.mem_erase_iff).1 (hfin.2.1 hcon)).1 rfl

/-- C5 counterexample: with ambiguous destination 10.0.0.1, port 3's set
of size two and port 4's set of size one, the claim as stated would
remove the destination from the larger set (port 3's); the code instead
removes it from port 4's set, the strictly smaller one, leaving it in
port 3's set. -/
theorem C5_counterexample_removed_from_smaller :
    resolveAmbiguity [Node.host 1, Node.host 2] [Node.host 1] =
      ([Node.host 1, Node.host 2], []) ∧
    Node.host 1 ∈ (resolveAmbiguity [Node.host 1, Node.host 2] [Node.host 1]).1 ∧
    ([Node.host 1] : List Node).length < ([Node.host 1, Node.host 2] : List Node).length := by
  refine ⟨?_, ?_, ?_⟩ <;> decide

/-- C5 (amended): for every pair of duplicate-free destination sets,
every destination of the ambiguity set is removed from whichever of the
two port sets is currently the strictly smaller one when that
destination is processed, with ties broken toward removing it from the
higher-numbered port (port 4). -/
theorem C5_ambiguity_removed_from_smaller (s3 s4 : List Node) (h3 : s3.Nodup) (h4 : s4.Nodup)
    (l₁ : List Node) (d : Node) (l₂ : List Node)
    (hsplit : inter s3 s4 = l₁ ++ d :: l₂) :
    ((l₁.foldl resolveStep (s3, s4)).1.length < (l₁.foldl resolveStep (s3, s4)).2.length →
      d ∉ (resolveAmbiguity s3 s4).1 ∧ d ∈ (resolveAmbiguity s3 s4).2) ∧
    (¬ (l₁.foldl resolveStep (s3, s4)).1.length < (l₁.foldl resolveStep (s3, s4)).2.length →
      d ∈ (resolveAmbiguity s3 s4).1 ∧ d ∉ (resolveAmbiguity s3 s4).2) :=
  resolve_processed_step s3 s4 h3 h4 l₁ d l₂ hsplit

/-- Witness for the amended C5 at the counterexample input. -/
theorem C5_ambiguity_removed_from_smaller_witness :
    ([Node.host 1, Node.host 2] : List Node).Nodup ∧
    ([Node.host 1] : List Node).Nodup ∧
    inter [Node.host 1, Node.host 2] [Node.host 1] = [] ++ Node.host 1 :: [] ∧
    (((([] : List Node).foldl resolveStep ([Node.host 1, Node.host 2], [Node.host 1])).1.length <
        (([] : List Node).foldl resolveStep ([Node.host 1, Node.host 2], [Node.host 1])).2.length →
      Node.host 1 ∉ (resolveAmbiguity [Node.host 1, Node.host 2] [Node.host 1]).1 ∧
      Node.host 1 ∈ (resolveAmbiguity [Node.host 1, Node.host 2] [Node.host 1]).2) ∧
     (¬ (([] : List Node).foldl resolveStep ([Node.host 1, Node.host 2], [Node.host 1])).1.length <
        (([] : List Node).foldl resolveStep ([Node.host 1, Node.host 2], [Node.host 1])).2.length →
      Node.host 1 ∈ (resolveAmbiguity [Node.host 1, Node.host 2] [Node.host 1]).1 ∧
      Node.host 1 ∉ (resolveAmbiguity [Node.host 1, Node.host 2] [Node.host 1]).2)) :=
  ⟨by decide, by decide, by decide,
   C5_ambiguity_removed_from_smaller [Node.host 1, Node.host 2] [Node.host 1]
     (by decide) (by decide) [] (Node.host 1) [] (by decide)⟩

/-- C6: for every pair of duplicate-free destination sets, after
ambiguity resolution each destination of the ambiguity set belongs to
exactly one of the two port sets. -/
theorem C6_multicast_port_exclusivity (s3 s4 : List Node) (h3 : s3.Nodup) (h4 : s4.Nodup)
    (d : Node) (hd : d ∈ inter s3 s4) :
    (d ∈ (resolveAmbiguity s3 s4).1 ∧ d ∉ (resolveAmbiguity s3 s4).2) ∨
    (d ∉ (resolveAmbiguity s3 s4).1 ∧ d ∈ (resolveAmbiguity s3 s4).2) := by
  obtain ⟨l₁, l₂, hsplit⟩ := List.append_of_mem hd
  obtain ⟨h1, h2⟩ := resolve_processed_step s3 s4 h3 h4 l₁ d l₂ hsplit
  by_cases hlt : (l₁.foldl resolveStep (s3, s4)).1.length <
      (l₁.foldl resolveStep (s3, s4)).2.length
  · exact Or.inr (h1 hlt)
  · exact Or.inl (h2 hlt)

/-- Witness for C6 at two concrete overlapping destination sets. -/
theorem C6_multicast_port_exclusivity_witness :
    ([Node.host 1, Node.host 2] : List Node).Nodup ∧
    ([Node.host 1, Node.host 3] : List Node).Nodup ∧
    Node.host 1 ∈ inter [Node.host 1, Node.host 2] [Node.host 1, Node.host 3] ∧
    ((Node.host 1 ∈ (resolveAmbiguity [Node.host 1, Node.host 2] [Node.host 1, Node.host 3]).1 ∧
      Node.host 1 ∉ (resolveAmbiguity [Node.host 1, Node.host 2] [Node.host 1, Node.host 3]).2) ∨
     (Node.host 1 ∉ (resolveAmbiguity [Node.host 1, Node.host 2] [Node.host 1, Node.host 3]).1 ∧
      Node.host 1 ∈ (resolveAmbiguity [Node.host 1, Node.host 2] [Node.host 1, Node.host 3]).2)) :=
  ⟨by decide, by decide, by decide,
   C6_multicast_port_exclusivity [Node.host 1, Node.host 2] [Node.host 1, Node.host 3]
     (by decide) (by decide) (Node.host 1) (by decide)⟩

/-- Writing back the very list a registry key holds leaves the registry
unchanged. -/
theorem slices_setPort_self (s : Slices) (p : Nat) (l : List Entry) (h : s.get? p = some l) :
    s.setPort p l = s := by
  unfold Slices.get? at h
  split at h
  · cases h; rfl
  · cases h; rfl
  · cases h; rfl
  · cases h

/-- C7: when both path computations succeed, the registry key exists and
the protocol is supported, add_slice issues exactly one flow-install
command, addressed to the switch of the current packet-in, and admitting
a tuple already present leaves the whole registry unchanged. -/
theorem C7_add_slice_dedup (g : Graph) (s : Slices) (dpid : Nat) (src dst : Node)
    (protocol dstPort queueId : Nat) (w : WClass) (ofPriority : Nat)
    (path srcPath : List Node) (nxt : Node) (op : Nat) (st : List Entry)
    (h1 : shortestPath g (Node.sw dpid) dst w = some path)
    (h2 : nextAfter path (Node.sw dpid) = some nxt)
    (h3 : g.outPort (Node.sw dpid) nxt = some op)
    (h4 : shortestPath g src dst w = some srcPath)
    (h5 : s.get? dstPort = some st)
    (h6 : protocol = 17 ∨ protocol = 6) :
    (addSlice g s dpid src dst protocol dstPort queueId w ofPriority).1 =
      [Event.install dpid dstPort src dst protocol ofPriority queueId op] ∧
    ((some ⟨src, dst, protocol, dstPort, queueId, w, srcPath, ofPriority⟩ : Entry) ∈ st →
      (addSlice g s dpid src dst protocol dstPort queueId w ofPriority).2.1 = s) := by
  unfold addSlice
  simp only [h1, h2, h3, h4, h5]
  constructor
  · unfold addPortBasedFlow
    rw [if_pos h6]
  · intro hmem
    have hcont : st.contains
        (some ⟨src, dst, protocol, dstPort, queueId, w, srcPath, ofPriority⟩ : Entry) = true := by
      simpa using hmem
    unfold addEntry
    rw [if_pos hcont]
    exact slices_setPort_self s dstPort st h5

/-- The video slice-flow record admitted in the C7 witness scenario. -/
def vidRec : SliceRec :=
  ⟨Node.host 1, Node.host 2, 17, 5004, VIDEO_QUEUE, WClass.video,
   [Node.host 1, Node.sw 1, Node.sw 2, Node.host 2], 3⟩

/-- Registry state after the first admission of vidRec. -/
def regAfterFirst : Slices := ⟨[some vidRec], [], []⟩

/-- Witness for C7: the second, identical admission of a video slice on
the initial topology. -/
theorem C7_add_slice_dedup_witness :
    shortestPath initNet (Node.sw 1) (Node.host 2) WClass.video =
      some [Node.sw 1, Node.sw 2, Node.host 2] ∧
    nextAfter [Node.sw 1, Node.sw 2, Node.host 2] (Node.sw 1) = some (Node.sw 2) ∧
    Graph.outPort initNet (Node.sw 1) (Node.sw 2) = some 3 ∧
    shortestPath initNet (Node.host 1) (Node.host 2) WClass.video =
      some [Node.host 1, Node.sw 1, Node.sw 2, Node.host 2] ∧
    regAfterFirst.get? 5004 = some [some vidRec] ∧
    ((addSlice initNet regAfterFirst 1 (Node.host 1) (Node.host 2) 17 5004 VIDEO_QUEUE
        WClass.video 3).1 =
      [Event.install 1 5004 (Node.host 1) (Node.host 2) 17 3 VIDEO_QUEUE 3] ∧
     ((some vidRec : Entry) ∈ [some vidRec] →
      (addSlice initNet regAfterFirst 1 (Node.host 1) (Node.host 2) 17 5004 VIDEO_QUEUE
          WClass.video 3).2.1 = regAfterFirst)) :=
  ⟨by decide, by decide, by decide, by decide, by decide,
   C7_add_slice_dedup initNet regAfterFirst 1 (Node.host 1) (Node.host 2) 17 5004 VIDEO_QUEUE
     WClass.video 3 [Node.sw 1, Node.sw 2, Node.host 2]
     [Node.host 1, Node.sw 1, Node.sw 2, Node.host 2] (Node.sw 2) 3 [some vidRec]
     (by decide) (by decide) (by decide) (by decide) (by decide) (Or.inl rfl)⟩

/-- Decimal rendering of a single-digit number is its digit character. -/
theorem toString_single_digit (n : Nat) (h : n < 10) :
    (toString n).data = [Nat.digitChar n] := by
  interval_cases n <;> decide

/-- Numeric value of a digit character. -/
theorem digitChar_toNat_sub (n : Nat) (h : n < 10) : (Nat.digitChar n).toNat - 48 = n := by
  interval_cases n <;> decide

/-- The digit-string accumulation of the multicast port builder. -/
theorem foldl_digit_string (l : List Node) :
    ∀ acc : String, (∀ d ∈ l, lastOctet d < 10) →
      (l.foldl (fun acc d => acc ++ toString (lastOctet d)) acc).data =
        acc.data ++ l.map (fun d => Nat.digitChar (lastOctet d)) := by
  induction l with
  | nil => intro acc _; simp
  | cons x rest ih =>
    intro acc h
    rw [List.foldl_cons, ih _ (fun d hd => h d (List.mem_cons_of_mem _ hd)), List.map_cons]
    rw [String.data_append, toString_single_digit _ (h x (List.mem_cons_self _ _))]
    simp

/-- Folding the int() digit step over rendered digits equals the direct
numeric fold. -/
theorem foldl_pyInt_digits (l : List Node) :
    ∀ acc : Nat, (∀ d ∈ l, lastOctet d < 10) →
      (l.map (fun d => Nat.digitChar (lastOctet d))).foldl
          (fun n c => n * 10 + (c.toNat - 48)) acc =
        l.foldl (fun a d => a * 10 + lastOctet d) acc := by
  induction l with
  | nil => intro acc _; rfl
  | cons x rest ih =>
    intro acc h
    rw [List.map_cons, List.foldl_cons, List.foldl_cons,
        digitChar_toNat_sub _ (h x (List.mem_cons_self _ _))]
    exact ih _ (fun d hd => h d (List.mem_cons_of_mem _ hd))

/-- Trailing zero padding multiplies the accumulated value by a power of
ten. -/
theorem foldl_zero_pad (k : Nat) :
    ∀ acc : Nat, (List.replicate k '0').foldl (fun n c => n * 10 + (c.toNat - 48)) acc =
      acc * 10 ^ k := by
  induction k with
  | zero => intro acc; simp
  | succ k ih =>
    intro acc
    rw [List.replicate_succ, List.foldl_cons, ih]
    have h0 : ('0'.toNat - 48) = 0 := rfl
    rw [h0]
    ring

/-- The string-built multicast port of the source equals its arithmetic
description for single-digit octets. -/
theorem multicastPortCode_eq_spec (dests : List Node) (h : ∀ d ∈ dests, lastOctet d < 10) :
    multicastPortCode dests = multicastPortSpec dests := by
  unfold multicastPortCode multicastPortSpec pyInt
  dsimp only
  rw [String.data_append]
  have hdata : (dests.foldl (fun acc d => acc ++ toString (lastOctet d)) "11").data =
      ['1', '1'] ++ dests.map (fun d => Nat.digitChar (lastOctet d)) :=
    foldl_digit_string dests "11" h
  have hlen : (dests.foldl (fun acc d => acc ++ toString (lastOctet d)) "11").length =
      2 + dests.length := by
    show (dests.foldl (fun acc d => acc ++ toString (lastOctet d)) "11").data.length = _
    rw [hdata]; simp; omega
  rw [hdata, hlen]
  show (((['1', '1'] ++ dests.map fun d => Nat.digitChar (lastOctet d)) ++
      List.replicate (5 - (2 + dests.length)) '0').foldl (fun n c => n * 10 + (c.toNat - 48)) 0) = _
  rw [List.foldl_append, List.foldl_append]
  have h11 : (['1', '1'] : List Char).foldl (fun n c => n * 10 + (c.toNat - 48)) 0 = 11 := rfl
  rw [h11, foldl_pyInt_digits dests 11 h, foldl_zero_pad]
  have hsub : 5 - (2 + dests.length) = 3 - dests.length := by omega
  rw [hsub]

/-- C8: in the multicast output phase, a port with exactly one
destination gets queue, destination-IP rewrite, UDP port 10001 and
output; a port with an empty set yields no action; a port with several
destinations gets queue, the synthesized UDP port (prefix 11 followed by
the destinations' last octets in iteration order, right-padded with 0 to
5 digits) and output on the shared port. -/
theorem C8_multicast_output_actions (p : Nat) (dests : List Node)
    (h : ∀ d ∈ dests, lastOctet d < 10) :
    (dests = [] → portActions p dests = []) ∧
    (∀ d, dests = [d] → portActions p dests =
      [Action.setQueue MULTICAST_QUEUE, Action.setIpDst d, Action.setUdpDst 10001,
       Action.output p]) ∧
    (2 ≤ dests.length → portActions p dests =
      [Action.setQueue MULTICAST_QUEUE, Action.setUdpDst (multicastPortSpec dests),
       Action.output p]) := by
  refine ⟨?_, ?_, ?_⟩
  · intro hd; subst hd; rfl
  · intro d hd; subst hd; rfl
  · intro hd
    rcases dests with _ | ⟨x, _ | ⟨y, rest⟩⟩
    · simp at hd
    · simp at hd
    · rw [show portActions p (x :: y :: rest) =
        [Action.setQueue MULTICAST_QUEUE,
         Action.setUdpDst (multicastPortCode (x :: y :: rest)), Action.output p] from rfl]
      rw [multicastPortCode_eq_spec _ h]

/-- Witness for C8 at the two-destination group of hosts 2 and 3. -/
theorem C8_multicast_output_actions_witness :
    (∀ d ∈ ([Node.host 2, Node.host 3] : List Node), lastOctet d < 10) ∧
    ((([Node.host 2, Node.host 3] : List Node) = [] →
        portActions 3 [Node.host 2, Node.host 3] = []) ∧
     (∀ d, ([Node.host 2, Node.host 3] : List Node) = [d] →
        portActions 3 [Node.host 2, Node.host 3] =
          [Action.setQueue MULTICAST_QUEUE, Action.setIpDst d, Action.setUdpDst 10001,
           Action.output 3]) ∧
     (2 ≤ ([Node.host 2, Node.host 3] : List Node).length →
        portActions 3 [Node.host 2, Node.host 3] =
          [Action.setQueue MULTICAST_QUEUE,
           Action.setUdpDst (multicastPortSpec [Node.host 2, Node.host 3]),
           Action.output 3])) :=
  ⟨by decide, C8_multicast_output_actions 3 [Node.host 2, Node.host 3] (by decide)⟩

end PBL
